import Mathlib

/-!
Verification of the OpenTalon core against its specification.

This file shallowly embeds the two specified subsystems of the Go source:

* the agent-side snapshot collector (`internal/agent/agent.go`): `Collect`,
  `netBandwidth`, `connectionCounts`, `maxDiskUsage`; OS queries (gopsutil
  calls, `/proc` reads, clocks) are passed in as an explicit `OSEnv` record,
  a failing query being `none`.  Go `uint64` counters are `Nat` with explicit
  wraparound `% 2^64`; Go `float64` second-deltas and percentages are
  idealized as exact `ℚ` arithmetic (every concrete input used below makes
  the actual `float64` computation exact, so no verdict depends on rounding);
  Go `int64(...)` truncation of a nonnegative quotient is `Int.floor`.

* the server-side topology resolver and tree builder
  (`internal/server/db.go` + the metrics-ingest handler): the GORM-backed
  record store is embedded as an explicit `Store` (device list in primary-key
  creation order, append-only metrics list, auto-increment counter);
  `DB.Where("ip = ?").First` is `List.find?` (GORM `First` orders by primary
  key, and the list is kept in that order); `DB.Model(&dev).Updates`/`Update`
  is a by-id map over the device list, and — as GORM documents — also writes
  the given values back into the in-memory struct.  The Go tree builder
  iterates over a Go map whose iteration order is unspecified, so the
  embedding takes that iteration order as an explicit input list.
-/

/-! ## Agent-side data model (internal/agent/agent.go) -/

/-- One collection cycle's data (struct `Snapshot`). -/
structure Snapshot where
  hostname : String
  localIP : String
  gatewayIP : String
  os : String
  cpuUsage : ℚ
  memUsage : ℚ
  diskUsage : ℚ
  tcpConnections : Nat
  udpConnections : Nat
  rxBytes : Int
  txBytes : Int
  collectedAt : ℚ
deriving DecidableEq

/-- The cross-call bandwidth state held by struct `Collector`
(`prevRx`, `prevTx`, `prevTime`, `initialized`; the mutex only serializes
calls and has no sequential content). -/
structure Collector where
  prevRx : Nat
  prevTx : Nat
  prevTime : ℚ
  initialized : Bool
deriving DecidableEq

/-- `NewCollector()` returns the zero-valued collector. -/
def NewCollector : Collector :=
  { prevRx := 0, prevTx := 0, prevTime := 0, initialized := false }

/-- Protocol kind of one OS connection-table entry (gopsutil reports
tcp4/tcp6/udp4/udp6 entries). -/
inductive ConnKind where
  | tcp4
  | tcp6
  | udp4
  | udp6
deriving DecidableEq

/-- One OS connection-table entry: its protocol kind and its state string
(for example "ESTABLISHED", "LISTEN", "TIME_WAIT"). -/
structure ConnEntry where
  kind : ConnKind
  status : String
deriving DecidableEq

/-- Whether an entry is TCP (either IP version). -/
def ConnEntry.isTCP (e : ConnEntry) : Bool :=
  e.kind = ConnKind.tcp4 ∨ e.kind = ConnKind.tcp6

/-- gopsutil `psnet.Connections("tcp")`: all TCP entries of the OS table,
both IP versions, every state (per the source comment at line 218:
`"tcp" returns both tcp4 and tcp6; same for udp`). -/
def tcpConnectionsOf (table : List ConnEntry) : List ConnEntry :=
  table.filter (fun e => e.isTCP)

/-- gopsutil `psnet.Connections("udp")`: all UDP entries, both IP versions. -/
def udpConnectionsOf (table : List ConnEntry) : List ConnEntry :=
  table.filter (fun e => !e.isTCP)

/-- `connectionCounts` (lines 216-228): lengths of the two query results;
a failed query (`err != nil`) degrades to the empty list, hence count 0. -/
def connectionCounts (tcpRes udpRes : Option (List ConnEntry)) : Nat × Nat :=
  ((tcpRes.getD []).length, (udpRes.getD []).length)

/-- The environment one `Collect()` call observes: results of every OS query
the Go code makes, plus the current clock.  A `none` models the
corresponding call returning an error. -/
structure OSEnv where
  hostname : Option String
  localIP : String
  gatewayIP : String
  osDesc : String
  cpuPcts : Option (List ℚ)
  memUsed : Option ℚ
  diskUsages : List (Option ℚ)
  diskPartErr : Bool
  connTable : List ConnEntry
  connTCPErr : Bool
  connUDPErr : Bool
  ioCounters : Option (Nat × Nat)
  now : ℚ
deriving DecidableEq

/-- Go `uint64` subtraction `a - b`, i.e. subtraction modulo `2^64`. -/
def u64sub (a b : Nat) : Nat :=
  (a % 2 ^ 64 + 2 ^ 64 - b % 2 ^ 64) % 2 ^ 64

/-- `int64(float64(delta) / dt)` for a nonnegative `delta`: the quotient is
nonnegative, so Go's truncation toward zero is the floor. -/
def rate (delta : Nat) (dt : ℚ) : Int :=
  Int.floor ((delta : ℚ) / dt)

/-- `netBandwidth` (lines 231-262).  `stats = none` covers
`err != nil || len(stats) == 0`: the function returns `(0, 0)` **before**
taking the lock or touching any state.  Otherwise the deltas of the
cumulative counters are divided by the elapsed seconds, negative results are
clamped to zero, and the state is unconditionally replaced.  Note the deltas
are computed in `uint64`, so a decreasing counter wraps around rather than
going negative. -/
def netBandwidth (c : Collector) (stats : Option (Nat × Nat)) (now : ℚ) :
    (Int × Int) × Collector :=
  match stats with
  | none => ((0, 0), c)
  | some (curRx, curTx) =>
    let pair : Int × Int :=
      if c.initialized then
        let dt := now - c.prevTime
        if 0 < dt then
          let rxBps := rate (u64sub curRx c.prevRx) dt
          let txBps := rate (u64sub curTx c.prevTx) dt
          (if rxBps < 0 then 0 else rxBps, if txBps < 0 then 0 else txBps)
        else (0, 0)
      else (0, 0)
    (pair, { prevRx := curRx, prevTx := curTx, prevTime := now, initialized := true })

/-- `maxDiskUsage` (lines 197-214): maximum used-percentage over the
partitions whose `Usage` call succeeded; 0 if `Partitions` itself failed. -/
def maxDiskUsage (env : OSEnv) : ℚ :=
  if env.diskPartErr then 0
  else (env.diskUsages.filterMap id).foldl (fun m u => if m < u then u else m) 0

/-- `Collect` (lines 52-91): assembles the snapshot from the individual OS
queries, every failing sub-measurement degrading to a zero/empty value, and
threads the bandwidth state. -/
def Collect (c : Collector) (env : OSEnv) : Snapshot × Collector :=
  let bw := netBandwidth c env.ioCounters env.now
  let counts := connectionCounts
    (if env.connTCPErr then none else some (tcpConnectionsOf env.connTable))
    (if env.connUDPErr then none else some (udpConnectionsOf env.connTable))
  ({ hostname := env.hostname.getD ""
     localIP := env.localIP
     gatewayIP := env.gatewayIP
     os := env.osDesc
     cpuUsage := match env.cpuPcts with
       | some (x :: _) => x
       | _ => 0
     memUsage := env.memUsed.getD 0
     diskUsage := maxDiskUsage env
     tcpConnections := counts.1
     udpConnections := counts.2
     rxBytes := bw.1.1
     txBytes := bw.1.2
     collectedAt := env.now }, bw.2)

/-- Modelled from the spec: "connection counts are the total count of
established TCP and UDP entries in the OS connection table, combining both
IP versions" — the number of TCP entries whose state is ESTABLISHED.  This
definition follows the spec's words, for comparison with the code's
`connectionCounts`. -/
def specEstablishedTCPCount (table : List ConnEntry) : Nat :=
  (table.filter (fun e => e.isTCP ∧ e.status = "ESTABLISHED")).length

/-- A collector state mid-stream: previous receive counter 2048, previous
transmit counter 0, previous read at t = 0 s, initialized. -/
def resetCollector : Collector :=
  { prevRx := 2048, prevTx := 0, prevTime := 0, initialized := true }

/-! ## Collector theorems -/

/-- Splitting a TCP count into its two IP versions. -/
theorem tcpConnectionsOf_length_split (t : List ConnEntry) :
    (tcpConnectionsOf t).length
      = (t.filter (fun e => e.kind = ConnKind.tcp4)).length
        + (t.filter (fun e => e.kind = ConnKind.tcp6)).length := by
  induction t with
  | nil => rfl
  | cons e t ih =>
    cases hk : e.kind <;>
      simp [tcpConnectionsOf, ConnEntry.isTCP, hk, List.filter_cons] at * <;>
      omega

/-- Splitting a UDP count into its two IP versions. -/
theorem udpConnectionsOf_length_split (t : List ConnEntry) :
    (udpConnectionsOf t).length
      = (t.filter (fun e => e.kind = ConnKind.udp4)).length
        + (t.filter (fun e => e.kind = ConnKind.udp6)).length := by
  induction t with
  | nil => rfl
  | cons e t ih =>
    cases hk : e.kind <;>
      simp [udpConnectionsOf, ConnEntry.isTCP, hk, List.filter_cons] at * <;>
      omega

/-- C3: a counter reset does NOT yield rate 0.  With previous receive counter
2048 and a current read of 0 four seconds later (cumulative counter strictly
decreased, i.e. a reset), the `uint64` delta wraps to `2^64 - 2048` and the
reported receive rate is the spuriously large positive value
`(2^64 - 2048) / 4 = 4611686018427387392` bytes/s — the `rxBps < 0` clamp
never faces a negative delta, so it cannot fire.  (At this input the
`float64` computation is exact and inside `int64` range, so the idealization
as exact arithmetic agrees with the Go code on every platform.) -/
theorem netBandwidth_reset_spurious_rate :
    (netBandwidth resetCollector (some (0, 0)) 4).1.1 = 4611686018427387392 ∧
    (netBandwidth resetCollector (some (0, 0)) 4).1.1 ≠ 0 := by
  have hu : u64sub 0 2048 = 18446744073709549568 := by decide
  have hq : ((18446744073709549568 : ℕ) : ℚ) / 4 = ((4611686018427387392 : ℤ) : ℚ) := by
    norm_num
  have hr : rate 18446744073709549568 4 = 4611686018427387392 := by
    unfold rate
    rw [hq, Int.floor_intCast]
  have hmain : (netBandwidth resetCollector (some (0, 0)) 4).1.1 = 4611686018427387392 := by
    simp only [netBandwidth, resetCollector]
    norm_num [hu, hr]
  exact ⟨hmain, by rw [hmain]; decide⟩

/-- C7: a freshly constructed collector's first `Collect` reports zero
receive and transmit rates, whatever the underlying counters (and even if
the counter read fails). -/
theorem collect_first_call_zero_rates (env : OSEnv) :
    (Collect NewCollector env).1.rxBytes = 0 ∧ (Collect NewCollector env).1.txBytes = 0 := by
  cases h : env.ioCounters with
  | none => simp [Collect, netBandwidth, h]
  | some v =>
    cases v with
    | mk a b => simp [Collect, netBandwidth, h, NewCollector]

/-- C10: when the counter read fails (or returns no entries), the reported
rates are zero, the stored baseline is completely unchanged, and therefore
any later successful call computes exactly what it would have computed had
the failed call never happened (its delta spans back to the last successful
read). -/
theorem collect_failed_counter_read (c : Collector) (env : OSEnv)
    (h : env.ioCounters = none) :
    (Collect c env).1.rxBytes = 0 ∧ (Collect c env).1.txBytes = 0 ∧
    (Collect c env).2 = c ∧
    ∀ (stats : Option (Nat × Nat)) (t : ℚ),
      netBandwidth (Collect c env).2 stats t = netBandwidth c stats t := by
  refine ⟨?_, ?_, ?_, ?_⟩ <;> simp [Collect, netBandwidth, h]

/-- An environment whose counter read failed. -/
def failedReadEnv : OSEnv :=
  { hostname := none, localIP := "", gatewayIP := "", osDesc := "",
    cpuPcts := none, memUsed := none, diskUsages := [], diskPartErr := false,
    connTable := [], connTCPErr := false, connUDPErr := false,
    ioCounters := none, now := 7 }

/-- Witness for `collect_failed_counter_read` at a concrete input. -/
theorem collect_failed_counter_read_witness :
    (Collect resetCollector failedReadEnv).1.rxBytes = 0 ∧
    (Collect resetCollector failedReadEnv).2 = resetCollector :=
  ⟨(collect_failed_counter_read resetCollector failedReadEnv rfl).1,
   (collect_failed_counter_read resetCollector failedReadEnv rfl).2.2.1⟩

/-- An environment whose connection table holds a single TCP entry that is
not established (state LISTEN). -/
def listenOnlyEnv : OSEnv :=
  { hostname := none, localIP := "", gatewayIP := "", osDesc := "",
    cpuPcts := none, memUsed := none, diskUsages := [], diskPartErr := false,
    connTable := [{ kind := ConnKind.tcp4, status := "LISTEN" }],
    connTCPErr := false, connUDPErr := false,
    ioCounters := none, now := 0 }

/-- C9 counterexample: the snapshot's TCP count is the number of ALL TCP
entries, not of established entries only — on a table with one LISTEN entry
the snapshot reports 1, while the count of established entries is 0. -/
theorem connectionCounts_not_established_only :
    (Collect NewCollector listenOnlyEnv).1.tcpConnections
      ≠ specEstablishedTCPCount listenOnlyEnv.connTable := by
  decide

/-- C9 as amended: the snapshot's connection counts are the total numbers of
TCP and UDP entries in the OS connection table regardless of connection
state, combining the IPv4 and IPv6 entries of each protocol. -/
theorem connectionCounts_combine_ip_versions (c : Collector) (env : OSEnv)
    (htcp : env.connTCPErr = false) (hudp : env.connUDPErr = false) :
    (Collect c env).1.tcpConnections
      = (env.connTable.filter (fun e => e.kind = ConnKind.tcp4)).length
        + (env.connTable.filter (fun e => e.kind = ConnKind.tcp6)).length ∧
    (Collect c env).1.udpConnections
      = (env.connTable.filter (fun e => e.kind = ConnKind.udp4)).length
        + (env.connTable.filter (fun e => e.kind = ConnKind.udp6)).length := by
  constructor
  · simp [Collect, connectionCounts, htcp, tcpConnectionsOf_length_split]
  · simp [Collect, connectionCounts, hudp, udpConnectionsOf_length_split]

/-- Witness for `connectionCounts_combine_ip_versions` at a concrete input. -/
theorem connectionCounts_combine_ip_versions_witness :
    (Collect NewCollector listenOnlyEnv).1.tcpConnections = 1 ∧
    (Collect NewCollector listenOnlyEnv).1.udpConnections = 0 :=
  ⟨((connectionCounts_combine_ip_versions NewCollector listenOnlyEnv rfl rfl).1).trans
     (by decide),
   ((connectionCounts_combine_ip_versions NewCollector listenOnlyEnv rfl rfl).2).trans
     (by decide)⟩

/-! ## Server-side data model (internal/models, internal/server/db.go) -/

/-- A managed device record (struct `models.Device`).  `id` is the
auto-incremented primary key; `ip` is the natural key agents are matched on;
`parentID = none` means root.  Times are abstract ticks (`Nat`). -/
structure Device where
  id : Nat
  hostname : String
  remark : String
  ip : String
  os : String
  parentID : Option Nat
  gatewayIP : String
  networkMode : String
  group : String
  lastSeen : Nat
  agentVer : String
  isOnline : Bool
deriving DecidableEq

/-- An appended metrics record (struct `models.Metrics`). -/
structure Metrics where
  deviceID : Nat
  cpuUsage : ℚ
  memUsage : ℚ
  diskUsage : ℚ
  rxBytes : Int
  txBytes : Int
  tcpConnections : Int
  udpConnections : Int
  gatewayIP : String
  localIP : String
  reportedAt : Nat
deriving DecidableEq

/-- The record store: devices in primary-key (creation) order, the
append-only metrics table, and the auto-increment counter (GORM/SQLite
primary keys start at 1). -/
structure Store where
  devices : List Device
  metrics : List Metrics
  nextID : Nat
deriving DecidableEq

/-- The freshly migrated, empty database. -/
def emptyStore : Store := { devices := [], metrics := [], nextID := 1 }

/-- `RegisterPayload` (db.go lines 938-947). -/
structure RegisterPayload where
  hostname : String
  ip : String
  os : String
  gatewayIP : String
  group : String
  networkMode : String
  parentID : Option Nat
  agentVer : String
deriving DecidableEq

/-- `DB.Where("ip = ?", ip).First(&dev)`: the first device (in primary-key
order) whose IP matches; `none` is `gorm.ErrRecordNotFound`. -/
def findByIP (s : Store) (ip : String) : Option Device :=
  s.devices.find? (fun d => d.ip = ip)

/-- `DB.Model(...).Where("id = ?", i).Updates(...)`: rewrite every stored
device whose primary key is `i` with `f` (ids are unique in any store GORM
produces, so at most one row changes). -/
def updateDevice (s : Store) (i : Nat) (f : Device → Device) : Store :=
  { s with devices := s.devices.map (fun d => if d.id = i then f d else d) }

/-- The device row `DB.Create(&dev)` inserts in the not-found branch of
`UpsertDevice` (lines 814-826): fields from the payload, a fresh primary
key, and the GORM column defaults (`network_mode` 'Bridged', `group`
'default', `is_online` false) for zero-valued fields. -/
def createDevice (s : Store) (p : RegisterPayload) : Device :=
  { id := s.nextID
    hostname := p.hostname
    remark := ""
    ip := p.ip
    os := p.os
    parentID := p.parentID
    gatewayIP := p.gatewayIP
    networkMode := if p.networkMode = "" then "Bridged" else p.networkMode
    group := if p.group = "" then "default" else p.group
    lastSeen := 0
    agentVer := p.agentVer
    isOnline := false }

/-- `wireParent` (lines 862-873): look up the device whose IP equals the
reported gateway IP; not found → no-op; found but identical to self → no-op
(self-reference guard); otherwise persist `parent_id := parent.id` and update
the in-memory struct.  Returns the updated struct and store. -/
def wireParent (s : Store) (dev : Device) : Device × Store :=
  match findByIP s dev.gatewayIP with
  | none => (dev, s)
  | some parent =>
    if parent.id = dev.id then (dev, s)
    else ({ dev with parentID := some parent.id },
          updateDevice s dev.id (fun d => { d with parentID := some parent.id }))

/-- The `is_online = true, last_seen = now` update applied by `UpsertDevice`
(found-branch map, lines 831-840, and final update, lines 852-855) and by
`SaveMetrics` (lines 882-885). -/
def markOnline (now : Nat) (d : Device) : Device :=
  { d with isOnline := true, lastSeen := now }

/-- The found-branch `Updates` map of `UpsertDevice` (lines 831-840):
overwrite the mutable presentation fields, mark online, refresh last-seen;
the parent reference is not in the map. -/
def overwriteMutable (now : Nat) (p : RegisterPayload) (d : Device) : Device :=
  { d with hostname := p.hostname, os := p.os, gatewayIP := p.gatewayIP,
           group := p.group, networkMode := p.networkMode, agentVer := p.agentVer,
           isOnline := true, lastSeen := now }

/-- `UpsertDevice` (lines 809-858).  Lookup by IP; not found → create from
the payload (parent taken from the payload, may be `none`); found →
overwrite mutable fields unconditionally and the parent ONLY if the payload
explicitly supplies one.  Then, if the (in-memory) device has no parent and
a non-empty gateway IP, attempt auto-wiring; finally mark the device online
with a refreshed last-seen.  Returns the resulting device and store. -/
def UpsertDevice (s : Store) (now : Nat) (p : RegisterPayload) : Device × Store :=
  match findByIP s p.ip with
  | none =>
    let dev := createDevice s p
    let s1 : Store := { s with devices := s.devices ++ [dev], nextID := s.nextID + 1 }
    let ds := if dev.parentID = none ∧ dev.gatewayIP ≠ "" then wireParent s1 dev else (dev, s1)
    (markOnline now ds.1, updateDevice ds.2 ds.1.id (markOnline now))
  | some d0 =>
    let dev1 := overwriteMutable now p d0
    let s1 := updateDevice s dev1.id (overwriteMutable now p)
    let ds2 : Device × Store :=
      match p.parentID with
      | some pid => ({ dev1 with parentID := some pid },
                     updateDevice s1 dev1.id (fun d => { d with parentID := some pid }))
      | none => (dev1, s1)
    let ds3 := if ds2.1.parentID = none ∧ ds2.1.gatewayIP ≠ "" then wireParent ds2.2 ds2.1 else ds2
    (markOnline now ds3.1, updateDevice ds3.2 ds3.1.id (markOnline now))

/-- `SaveMetrics` (lines 876-887): stamp the record with the device id and
the current time, append it, and mark the owning device online. -/
def SaveMetrics (s : Store) (now : Nat) (deviceID : Nat) (m : Metrics) : Store :=
  let m1 := { m with deviceID := deviceID, reportedAt := now }
  updateDevice { s with metrics := s.metrics ++ [m1] } deviceID (markOnline now)

/-- The metrics-report body of `handleMetricsIngest` (lines 570-582). -/
structure MetricsPayload where
  hostname : String
  ip : String
  gatewayIP : String
  cpuUsage : ℚ
  memUsage : ℚ
  diskUsage : ℚ
  rxBytes : Int
  txBytes : Int
  tcpConnections : Int
  udpConnections : Int
deriving DecidableEq

/-- `handleMetricsIngest` (lines 570-623): resolve the device by IP,
synthesizing a registration (group "auto", network mode Bridged, agent
version "unknown") when the IP is unknown, then append the metrics record
via `SaveMetrics`. -/
def handleMetricsIngest (s : Store) (now : Nat) (p : MetricsPayload) : Store :=
  let ds :=
    match findByIP s p.ip with
    | some d => (d, s)
    | none =>
      UpsertDevice s now
        { hostname := p.hostname, ip := p.ip, os := "", gatewayIP := p.gatewayIP,
          group := "auto", networkMode := "Bridged", parentID := none,
          agentVer := "unknown" }
  SaveMetrics ds.2 now ds.1.id
    { deviceID := 0, cpuUsage := p.cpuUsage, memUsage := p.memUsage,
      diskUsage := p.diskUsage, rxBytes := p.rxBytes, txBytes := p.txBytes,
      tcpConnections := p.tcpConnections, udpConnections := p.udpConnections,
      gatewayIP := p.gatewayIP, localIP := p.ip, reportedAt := 0 }

/-! ## Store helper lemmas -/

/-- `find?` commutes with a map that does not disturb the predicate. -/
theorem find?_map_pred {α : Type} (g : α → α) (p : α → Bool) (l : List α)
    (hg : ∀ a, p (g a) = p a) :
    (l.map g).find? p = (l.find? p).map g := by
  induction l with
  | nil => rfl
  | cons a l ih =>
    by_cases hpa : p a = true
    · simp [List.find?_cons, hg, hpa]
    · have : p a = false := by
        cases h : p a
        · rfl
        · exact absurd h hpa
      simp [List.find?_cons, hg, this, ih]

/-- Updating rows by id never disturbs an IP lookup when the row update
preserves the IP column. -/
theorem findByIP_updateDevice (s : Store) (i : Nat) (f : Device → Device)
    (ip : String) (hf : ∀ d, (f d).ip = d.ip) :
    findByIP (updateDevice s i f) ip
      = (findByIP s ip).map (fun d => if d.id = i then f d else d) := by
  unfold findByIP updateDevice
  apply find?_map_pred
  intro a
  by_cases h : a.id = i <;> simp [h, hf]

/-- An IP lookup over appended rows falls through to the appended rows
exactly when the old rows miss. -/
theorem findByIP_append_none (s : Store) (l : List Device) (ip : String)
    (h : findByIP s ip = none) :
    (s.devices ++ l).find? (fun d => d.ip = ip) = l.find? (fun d => d.ip = ip) := by
  unfold findByIP at h
  rw [List.find?_append, h, Option.none_or]

/-! ## C1: explicit-parent precedence -/

/-- C1: for a stored device with an already-set parent reference, a report
for its IP that supplies no explicit parent leaves that reference unchanged
(both in the returned device and in the store), while a report that supplies
an explicit differing parent overwrites it with the supplied one. -/
theorem upsert_parent_precedence (s : Store) (now : Nat) (d : Device)
    (pid q : Nat) (p₁ p₂ : RegisterPayload)
    (hd : d.parentID = some pid)
    (h1 : findByIP s p₁.ip = some d) (h1p : p₁.parentID = none)
    (h2 : findByIP s p₂.ip = some d) (h2p : p₂.parentID = some q) (hq : q ≠ pid) :
    ((UpsertDevice s now p₁).1.parentID = some pid ∧
     ∃ e, findByIP (UpsertDevice s now p₁).2 p₁.ip = some e ∧ e.parentID = some pid) ∧
    ((UpsertDevice s now p₂).1.parentID = some q ∧
     ∃ e, findByIP (UpsertDevice s now p₂).2 p₂.ip = some e ∧ e.parentID = some q) := by
  constructor
  · have hbranch :
        UpsertDevice s now p₁
          = (markOnline now (overwriteMutable now p₁ d),
             updateDevice (updateDevice s d.id (overwriteMutable now p₁))
               d.id (markOnline now)) := by
      simp [UpsertDevice, h1, h1p, overwriteMutable, hd]
    rw [hbranch]
    refine ⟨by simp [markOnline, overwriteMutable, hd], ?_⟩
    dsimp only
    rw [findByIP_updateDevice (updateDevice s d.id (overwriteMutable now p₁))
          d.id (markOnline now) p₁.ip (fun a => rfl),
        findByIP_updateDevice s d.id (overwriteMutable now p₁) p₁.ip (fun a => rfl),
        h1]
    exact ⟨_, rfl, by simp [markOnline, overwriteMutable, hd]⟩
  · have hbranch :
        UpsertDevice s now p₂
          = (markOnline now { overwriteMutable now p₂ d with parentID := some q },
             updateDevice
               (updateDevice (updateDevice s d.id (overwriteMutable now p₂))
                 d.id (fun e => { e with parentID := some q }))
               d.id (markOnline now)) := by
      simp [UpsertDevice, h2, h2p, overwriteMutable]
    rw [hbranch]
    refine ⟨by simp [markOnline], ?_⟩
    dsimp only
    rw [findByIP_updateDevice
          (updateDevice (updateDevice s d.id (overwriteMutable now p₂))
            d.id (fun e => { e with parentID := some q }))
          d.id (markOnline now) p₂.ip (fun a => rfl),
        findByIP_updateDevice (updateDevice s d.id (overwriteMutable now p₂))
          d.id (fun e => { e with parentID := some q }) p₂.ip (fun a => rfl),
        findByIP_updateDevice s d.id (overwriteMutable now p₂) p₂.ip (fun a => rfl),
        h2]
    exact ⟨_, rfl, by simp [markOnline, overwriteMutable]⟩

/-- A gateway device at IP 10.0.0.1. -/
def gwDevice : Device :=
  { id := 2, hostname := "gw", remark := "", ip := "10.0.0.1", os := "linux",
    parentID := none, gatewayIP := "", networkMode := "Bridged",
    group := "default", lastSeen := 0, agentVer := "v1", isOnline := true }

/-- A child device at IP 10.0.0.2 whose parent is already resolved to the
gateway (id 2). -/
def childDevice : Device :=
  { id := 1, hostname := "child", remark := "", ip := "10.0.0.2", os := "linux",
    parentID := some 2, gatewayIP := "10.0.0.1", networkMode := "Bridged",
    group := "default", lastSeen := 0, agentVer := "v1", isOnline := true }

/-- A store holding the child (with resolved parent) and the gateway. -/
def parentedStore : Store :=
  { devices := [childDevice, gwDevice], metrics := [], nextID := 3 }

/-- A report for the child's IP with no explicit parent. -/
def reportNoParent : RegisterPayload :=
  { hostname := "child", ip := "10.0.0.2", os := "linux",
    gatewayIP := "10.0.0.1", group := "default", networkMode := "Bridged",
    parentID := none, agentVer := "v2" }

/-- A report for the child's IP with an explicit differing parent (id 5). -/
def reportNewParent : RegisterPayload :=
  { hostname := "child", ip := "10.0.0.2", os := "linux",
    gatewayIP := "10.0.0.1", group := "default", networkMode := "Bridged",
    parentID := some 5, agentVer := "v2" }

/-- Witness for `upsert_parent_precedence` at a concrete store. -/
theorem upsert_parent_precedence_witness :
    (UpsertDevice parentedStore 9 reportNoParent).1.parentID = some 2 ∧
    (UpsertDevice parentedStore 9 reportNewParent).1.parentID = some 5 :=
  ⟨(upsert_parent_precedence parentedStore 9 childDevice 2 5
      reportNoParent reportNewParent rfl (by decide) rfl (by decide) rfl
      (by decide)).1.1,
   (upsert_parent_precedence parentedStore 9 childDevice 2 5
      reportNoParent reportNewParent rfl (by decide) rfl (by decide) rfl
      (by decide)).2.1⟩

/-! ## Create-branch structure of UpsertDevice -/

/-- Row updates keep the device count. -/
theorem length_updateDevice (s : Store) (i : Nat) (f : Device → Device) :
    (updateDevice s i f).devices.length = s.devices.length := by
  simp [updateDevice]

/-- Row updates never touch the metrics table. -/
theorem metrics_updateDevice (s : Store) (i : Nat) (f : Device → Device) :
    (updateDevice s i f).metrics = s.metrics := rfl

/-- In the not-found branch, `UpsertDevice` appends exactly the created row
and then only rewrites rows in place (auto-wiring and the online update):
the final store is the appended store with a row map `u` that preserves
identity, IP and the immutable-at-wiring fields, the metrics table is
untouched, and the returned device carries the fresh primary key and the
payload's IP. -/
theorem upsert_create_find (s : Store) (now : Nat) (p : RegisterPayload)
    (ip' : String) (h : findByIP s p.ip = none) :
    ∃ u : Device → Device,
      (∀ a, (u a).id = a.id ∧ (u a).ip = a.ip ∧ (u a).group = a.group ∧
            (u a).networkMode = a.networkMode ∧ (u a).agentVer = a.agentVer) ∧
      (∀ a, a.id ≠ s.nextID → u a = a) ∧
      findByIP (UpsertDevice s now p).2 ip'
        = (findByIP { s with devices := s.devices ++ [createDevice s p],
                             nextID := s.nextID + 1 } ip').map u ∧
      (UpsertDevice s now p).2.metrics = s.metrics ∧
      (UpsertDevice s now p).2.devices.length = s.devices.length + 1 ∧
      (UpsertDevice s now p).1.id = s.nextID ∧
      (UpsertDevice s now p).1.ip = p.ip := by
  have hdev : (createDevice s p).id = s.nextID := rfl
  simp only [UpsertDevice, h]
  by_cases hw : (createDevice s p).parentID = none ∧ (createDevice s p).gatewayIP ≠ ""
  · simp only [if_pos hw]
    set s1 : Store :=
      { s with devices := s.devices ++ [createDevice s p], nextID := s.nextID + 1 } with hs1
    unfold wireParent
    cases hpar : findByIP s1 (createDevice s p).gatewayIP with
    | none =>
      refine ⟨fun a => if a.id = (createDevice s p).id then markOnline now a else a,
        ?_, ?_, ?_, rfl, ?_, rfl, rfl⟩
      · intro a
        by_cases ha : a.id = (createDevice s p).id <;> simp [ha, markOnline]
      · intro a ha
        exact if_neg (fun hc => ha hc)
      · rw [findByIP_updateDevice s1 (createDevice s p).id (markOnline now) ip'
              (fun a => rfl)]
      · simp [length_updateDevice, hs1]
    | some parent =>
      by_cases hself : parent.id = (createDevice s p).id
      · simp only [if_pos hself]
        refine ⟨fun a => if a.id = (createDevice s p).id then markOnline now a else a,
          ?_, ?_, ?_, rfl, ?_, rfl, rfl⟩
        · intro a
          by_cases ha : a.id = (createDevice s p).id <;> simp [ha, markOnline]
        · intro a ha
          exact if_neg (fun hc => ha hc)
        · rw [findByIP_updateDevice s1 (createDevice s p).id (markOnline now) ip'
                (fun a => rfl)]
        · simp [length_updateDevice, hs1]
      · simp only [if_neg hself]
        refine ⟨(fun a => if a.id = (createDevice s p).id then markOnline now a else a) ∘
            (fun a => if a.id = (createDevice s p).id
                      then { a with parentID := some parent.id } else a),
          ?_, ?_, ?_, rfl, ?_, rfl, rfl⟩
        · intro a
          by_cases ha : a.id = (createDevice s p).id <;> simp [ha, markOnline]
        · intro a ha
          have hne : ¬ (a.id = (createDevice s p).id) := fun hc => ha hc
          simp only [Function.comp, if_neg hne]
        · rw [findByIP_updateDevice
                (updateDevice s1 (createDevice s p).id
                  (fun d => { d with parentID := some parent.id }))
                (createDevice s p).id (markOnline now) ip' (fun a => rfl),
              findByIP_updateDevice s1 (createDevice s p).id
                (fun d => { d with parentID := some parent.id }) ip' (fun a => rfl),
              Option.map_map]
        · simp [length_updateDevice, hs1]
  · simp only [if_neg hw]
    refine ⟨fun a => if a.id = (createDevice s p).id then markOnline now a else a,
      ?_, ?_, ?_, rfl, ?_, rfl, rfl⟩
    · intro a
      by_cases ha : a.id = (createDevice s p).id <;> simp [ha, markOnline]
    · intro a ha
      exact if_neg (fun hc => ha hc)
    · rw [findByIP_updateDevice
            { s with devices := s.devices ++ [createDevice s p], nextID := s.nextID + 1 }
            (createDevice s p).id (markOnline now) ip' (fun a => rfl)]
    · simp [length_updateDevice]

/-! ## C4: unknown-IP metrics ingestion -/

/-- What `SaveMetrics` does to an IP lookup: the matched row is the same,
marked online when it is the stamped device. -/
theorem findByIP_SaveMetrics (s : Store) (now i : Nat) (m : Metrics) (ip' : String) :
    findByIP (SaveMetrics s now i m) ip'
      = (findByIP s ip').map (fun d => if d.id = i then markOnline now d else d) :=
  findByIP_updateDevice _ i (markOnline now) ip' (fun a => rfl)

/-- `SaveMetrics` appends exactly its stamped record. -/
theorem metrics_SaveMetrics (s : Store) (now i : Nat) (m : Metrics) :
    (SaveMetrics s now i m).metrics
      = s.metrics ++ [{ m with deviceID := i, reportedAt := now }] := rfl

/-- `SaveMetrics` creates no device. -/
theorem length_SaveMetrics (s : Store) (now i : Nat) (m : Metrics) :
    (SaveMetrics s now i m).devices.length = s.devices.length :=
  length_updateDevice _ i (markOnline now)

/-- C4: a metrics report from an IP with no matching device creates exactly
one new device — carrying group "auto", network mode Bridged, agent version
"unknown" and the fresh primary key — and appends exactly one metrics record
owned by that device; the report is never dropped. -/
theorem metrics_ingest_unknown_ip (s : Store) (now : Nat) (p : MetricsPayload)
    (h : findByIP s p.ip = none) :
    (handleMetricsIngest s now p).devices.length = s.devices.length + 1 ∧
    (∃ e, findByIP (handleMetricsIngest s now p) p.ip = some e ∧
       e.id = s.nextID ∧ e.group = "auto" ∧ e.networkMode = "Bridged" ∧
       e.agentVer = "unknown") ∧
    (∃ m, (handleMetricsIngest s now p).metrics = s.metrics ++ [m] ∧
       m.deviceID = s.nextID) := by
  set reg : RegisterPayload :=
    { hostname := p.hostname, ip := p.ip, os := "", gatewayIP := p.gatewayIP,
      group := "auto", networkMode := "Bridged", parentID := none,
      agentVer := "unknown" } with hregdef
  have hreg : findByIP s reg.ip = none := h
  obtain ⟨u, hu, hoff, hfind, hmet, hlen, hid, hip⟩ := upsert_create_find s now reg p.ip hreg
  have hingest : handleMetricsIngest s now p
      = SaveMetrics (UpsertDevice s now reg).2 now (UpsertDevice s now reg).1.id
          { deviceID := 0, cpuUsage := p.cpuUsage, memUsage := p.memUsage,
            diskUsage := p.diskUsage, rxBytes := p.rxBytes, txBytes := p.txBytes,
            tcpConnections := p.tcpConnections, udpConnections := p.udpConnections,
            gatewayIP := p.gatewayIP, localIP := p.ip, reportedAt := 0 } := by
    simp only [handleMetricsIngest, h]
  have hcreated : findByIP (UpsertDevice s now reg).2 p.ip
      = some (u (createDevice s reg)) := by
    rw [hfind]
    have hstep : findByIP
        { s with devices := s.devices ++ [createDevice s reg],
                 nextID := s.nextID + 1 } p.ip = some (createDevice s reg) := by
      unfold findByIP
      rw [findByIP_append_none s [createDevice s reg] p.ip h]
      simp [createDevice]
    rw [hstep, Option.map_some']
  have huid : (u (createDevice s reg)).id = s.nextID := by
    rw [(hu (createDevice s reg)).1]
    rfl
  refine ⟨?_, ?_, ?_⟩
  · rw [hingest, length_SaveMetrics]
    exact hlen
  · refine ⟨markOnline now (u (createDevice s reg)), ?_, ?_, ?_, ?_, ?_⟩
    · rw [hingest, findByIP_SaveMetrics, hcreated, Option.map_some']
      rw [if_pos (huid.trans hid.symm)]
    · rw [markOnline, huid]
    · show (u (createDevice s reg)).group = "auto"
      rw [(hu (createDevice s reg)).2.2.1]
      rfl
    · show (u (createDevice s reg)).networkMode = "Bridged"
      rw [(hu (createDevice s reg)).2.2.2.1]
      rfl
    · show (u (createDevice s reg)).agentVer = "unknown"
      rw [(hu (createDevice s reg)).2.2.2.2]
      rfl
  · refine ⟨{ deviceID := (UpsertDevice s now reg).1.id, cpuUsage := p.cpuUsage,
              memUsage := p.memUsage, diskUsage := p.diskUsage,
              rxBytes := p.rxBytes, txBytes := p.txBytes,
              tcpConnections := p.tcpConnections,
              udpConnections := p.udpConnections, gatewayIP := p.gatewayIP,
              localIP := p.ip, reportedAt := now }, ?_, hid⟩
    rw [hingest, metrics_SaveMetrics, hmet]

/-- A metrics report from an IP no device carries. -/
def unknownIPReport : MetricsPayload :=
  { hostname := "new-host", ip := "10.0.0.9", gatewayIP := "10.0.0.1",
    cpuUsage := 50, memUsage := 0, diskUsage := 0, rxBytes := 0, txBytes := 0,
    tcpConnections := 0, udpConnections := 0 }

/-- Witness for `metrics_ingest_unknown_ip` on the empty store. -/
theorem metrics_ingest_unknown_ip_witness :
    (handleMetricsIngest emptyStore 1 unknownIPReport).devices.length
      = emptyStore.devices.length + 1 :=
  (metrics_ingest_unknown_ip emptyStore 1 unknownIPReport rfl).1

/-! ## C2: the no-self-parent invariant -/

/-- No stored device is its own parent. -/
abbrev NoSelfParent (s : Store) : Prop :=
  ∀ d ∈ s.devices, d.parentID ≠ some d.id

/-- The primary key an upsert for payload `p` will write to: the id of the
existing device with that IP, or the fresh id about to be assigned. -/
def targetId (s : Store) (p : RegisterPayload) : Nat :=
  match findByIP s p.ip with
  | some d => d.id
  | none => s.nextID

/-- A row update preserves the invariant when it preserves it on the rows it
may touch. -/
theorem noSelfParent_updateDevice {s : Store} (h : NoSelfParent s)
    (i : Nat) (f : Device → Device)
    (hf : ∀ d ∈ s.devices, d.id = i → d.parentID ≠ some d.id →
            (f d).parentID ≠ some (f d).id) :
    NoSelfParent (updateDevice s i f) := by
  intro d hd
  simp only [updateDevice, List.mem_map] at hd
  obtain ⟨d0, hd0, hd0e⟩ := hd
  by_cases hh : d0.id = i
  · rw [if_pos hh] at hd0e
    rw [← hd0e]
    exact hf d0 hd0 hh (h d0 hd0)
  · rw [if_neg hh] at hd0e
    rw [← hd0e]
    exact h d0 hd0

/-- Marking rows online never creates a self-parent. -/
theorem noSelfParent_markOnline {s : Store} (h : NoSelfParent s)
    (i now : Nat) : NoSelfParent (updateDevice s i (markOnline now)) :=
  noSelfParent_updateDevice h i (markOnline now)
    (fun d _ _ hd => by simpa [markOnline] using hd)

/-- Overwriting the mutable presentation fields never creates a
self-parent. -/
theorem noSelfParent_overwriteMutable {s : Store} (h : NoSelfParent s)
    (i now : Nat) (p : RegisterPayload) :
    NoSelfParent (updateDevice s i (overwriteMutable now p)) :=
  noSelfParent_updateDevice h i (overwriteMutable now p)
    (fun d _ _ hd => by simpa [overwriteMutable] using hd)

/-- Setting the parent of the rows with key `i` to a value other than `i`
never creates a self-parent. -/
theorem noSelfParent_setParent {s : Store} (h : NoSelfParent s)
    (i pid : Nat) (hpid : pid ≠ i) :
    NoSelfParent (updateDevice s i (fun d => { d with parentID := some pid })) :=
  noSelfParent_updateDevice h i _ (by
    intro d _ hdi _ hc
    simp only [Option.some.injEq] at hc
    exact hpid (hc.trans hdi))

/-- Auto-wiring preserves the invariant: the self-reference guard refuses
the only dangerous assignment. -/
theorem noSelfParent_wireParent {s : Store} (h : NoSelfParent s)
    (dev : Device) : NoSelfParent (wireParent s dev).2 := by
  unfold wireParent
  cases hpar : findByIP s dev.gatewayIP with
  | none => exact h
  | some parent =>
    by_cases hself : parent.id = dev.id
    · simpa [if_pos hself] using h
    · simp only [if_neg hself]
      exact noSelfParent_setParent h dev.id parent.id hself

/-- `UpsertDevice` preserves the invariant as long as the payload does not
explicitly name the target device's own id as its parent. -/
theorem upsert_preserves_noSelfParent (s : Store) (now : Nat)
    (p : RegisterPayload) (h : NoSelfParent s)
    (hp : p.parentID ≠ some (targetId s p)) :
    NoSelfParent (UpsertDevice s now p).2 := by
  unfold UpsertDevice
  cases hfind : findByIP s p.ip with
  | none =>
    have htarget : targetId s p = s.nextID := by simp [targetId, hfind]
    rw [htarget] at hp
    have h1 : NoSelfParent
        { s with devices := s.devices ++ [createDevice s p],
                 nextID := s.nextID + 1 } := by
      intro d hd
      simp only [List.mem_append, List.mem_singleton] at hd
      cases hd with
      | inl hold => exact h d hold
      | inr hnew =>
        rw [hnew]
        show p.parentID ≠ some s.nextID
        exact hp
    dsimp only
    by_cases hw : (createDevice s p).parentID = none ∧ (createDevice s p).gatewayIP ≠ ""
    · simp only [if_pos hw]
      exact noSelfParent_markOnline (noSelfParent_wireParent h1 _) _ now
    · simp only [if_neg hw]
      exact noSelfParent_markOnline h1 _ now
  | some d0 =>
    have htarget : targetId s p = d0.id := by simp [targetId, hfind]
    rw [htarget] at hp
    have h1 : NoSelfParent (updateDevice s (overwriteMutable now p d0).id
        (overwriteMutable now p)) :=
      noSelfParent_overwriteMutable h _ now p
    dsimp only
    cases hp0 : p.parentID with
    | none =>
      dsimp only
      by_cases hw : (overwriteMutable now p d0).parentID = none ∧
          (overwriteMutable now p d0).gatewayIP ≠ ""
      · simp only [if_pos hw]
        exact noSelfParent_markOnline (noSelfParent_wireParent h1 _) _ now
      · simp only [if_neg hw]
        exact noSelfParent_markOnline h1 _ now
    | some pid =>
      rw [hp0] at hp
      have hpid : pid ≠ (overwriteMutable now p d0).id := by
        intro hc
        exact hp (by rw [hc]; rfl)
      have h2 : NoSelfParent (updateDevice
          (updateDevice s (overwriteMutable now p d0).id (overwriteMutable now p))
          (overwriteMutable now p d0).id (fun d => { d with parentID := some pid })) :=
        noSelfParent_setParent h1 _ pid hpid
      dsimp only
      by_cases hw : (some pid : Option Nat) = none ∧
          (overwriteMutable now p d0).gatewayIP ≠ ""
      · exact absurd hw.1 (by simp)
      · simp only [if_neg hw]
        exact noSelfParent_markOnline h2 _ now

/-- `SaveMetrics` preserves the invariant (it only appends a metrics row and
marks the owner online). -/
theorem saveMetrics_preserves_noSelfParent (s : Store) (now i : Nat)
    (m : Metrics) (h : NoSelfParent s) :
    NoSelfParent (SaveMetrics s now i m) :=
  noSelfParent_markOnline (s := { s with metrics := s.metrics ++
    [{ m with deviceID := i, reportedAt := now }] }) h i now

/-- One inbound store operation: a registration upsert or a metrics save. -/
inductive Op where
  | upsert (now : Nat) (p : RegisterPayload)
  | save (now : Nat) (deviceID : Nat) (m : Metrics)
deriving DecidableEq

/-- Replay a sequence of store operations. -/
def run (s : Store) : List Op → Store
  | [] => s
  | Op.upsert now p :: rest => run (UpsertDevice s now p).2 rest
  | Op.save now i m :: rest => run (SaveMetrics s now i m) rest

/-- A trace is guarded when no upsert payload explicitly names the id of the
device it targets as its own parent. -/
def okTraceB (s : Store) : List Op → Bool
  | [] => true
  | Op.upsert now p :: rest =>
      (p.parentID != some (targetId s p)) && okTraceB (UpsertDevice s now p).2 rest
  | Op.save now i m :: rest => okTraceB (SaveMetrics s now i m) rest

/-- The invariant is preserved along every guarded trace. -/
theorem run_preserves_noSelfParent (ops : List Op) :
    ∀ s : Store, NoSelfParent s → okTraceB s ops = true →
      NoSelfParent (run s ops) := by
  induction ops with
  | nil => exact fun s h _ => h
  | cons op rest ih =>
    intro s h hok
    cases op with
    | upsert now p =>
      rw [okTraceB, Bool.and_eq_true, bne_iff_ne] at hok
      exact ih _ (upsert_preserves_noSelfParent s now p h hok.1) hok.2
    | save now i m =>
      rw [okTraceB] at hok
      exact ih _ (saveMetrics_preserves_noSelfParent s now i m h) hok

/-- C2 as amended: starting from an empty store, along any sequence of
`UpsertDevice`/`SaveMetrics` calls in which no report explicitly supplies
its target device's own id as parent, no device ever becomes its own parent
— in particular, a device whose reported gateway IP equals its own IP never
acquires itself as parent (the wiring guard), and a metrics save never
touches parents at all. -/
theorem empty_run_noSelfParent (ops : List Op)
    (hok : okTraceB emptyStore ops = true) :
    NoSelfParent (run emptyStore ops) :=
  run_preserves_noSelfParent ops emptyStore (fun d hd => absurd hd (by simp [emptyStore])) hok

/-- First report for IP 10.0.0.2, no explicit parent: creates device 1. -/
def firstReport : RegisterPayload :=
  { hostname := "a", ip := "10.0.0.2", os := "linux", gatewayIP := "",
    group := "default", networkMode := "Bridged", parentID := none,
    agentVer := "v1" }

/-- Second report for the same IP, explicitly naming device 1 — the device's
own id — as parent. -/
def selfParentReport : RegisterPayload :=
  { hostname := "a", ip := "10.0.0.2", os := "linux", gatewayIP := "",
    group := "default", networkMode := "Bridged", parentID := some 1,
    agentVer := "v1" }

/-- C2 counterexample: two `UpsertDevice` calls from the empty store leave a
device that is its own parent — the second report explicitly supplies
`parent_id = 1`, the id the first report's device received, and the explicit
branch stores it unguarded. -/
theorem upsert_self_parent_counterexample :
    ¬ NoSelfParent
        (UpsertDevice (UpsertDevice emptyStore 1 firstReport).2
          2 selfParentReport).2 := by
  decide

/-- A guarded three-step trace: gateway registers, child registers naming
the gateway, child saves metrics. -/
def guardedTrace : List Op :=
  [Op.upsert 1 { hostname := "gw", ip := "10.0.0.1", os := "linux",
                 gatewayIP := "", group := "default", networkMode := "Bridged",
                 parentID := none, agentVer := "v1" },
   Op.upsert 2 { hostname := "a", ip := "10.0.0.2", os := "linux",
                 gatewayIP := "10.0.0.1", group := "default",
                 networkMode := "Bridged", parentID := none, agentVer := "v1" },
   Op.save 3 2 { deviceID := 0, cpuUsage := 50, memUsage := 10, diskUsage := 20,
                 rxBytes := 0, txBytes := 0, tcpConnections := 1,
                 udpConnections := 0, gatewayIP := "10.0.0.1",
                 localIP := "10.0.0.2", reportedAt := 0 }]

/-- Witness for `empty_run_noSelfParent` on a concrete guarded trace. -/
theorem empty_run_noSelfParent_witness :
    NoSelfParent (run emptyStore guardedTrace) :=
  empty_run_noSelfParent guardedTrace (by decide)

/-! ## C5: late-arriving gateway -/

/-- The created row's primary key is the fresh id. -/
theorem createDevice_id (s : Store) (p : RegisterPayload) :
    (createDevice s p).id = s.nextID := rfl

/-- The created row's parent comes from the payload. -/
theorem createDevice_parentID (s : Store) (p : RegisterPayload) :
    (createDevice s p).parentID = p.parentID := rfl

/-- The created row's IP comes from the payload. -/
theorem createDevice_ip (s : Store) (p : RegisterPayload) :
    (createDevice s p).ip = p.ip := rfl

/-- Marking online keeps the parent reference. -/
theorem markOnline_parentID (now : Nat) (d : Device) :
    (markOnline now d).parentID = d.parentID := rfl

/-- An IP lookup that already hits in the old rows ignores appended rows. -/
theorem findByIP_append_some (s : Store) (l : List Device) (ip : String)
    (d : Device) (h : findByIP s ip = some d) :
    (s.devices ++ l).find? (fun x => x.ip = ip) = some d := by
  unfold findByIP at h
  rw [List.find?_append, h]
  rfl

/-- In the not-found branch, when no stored device carries the reported
gateway IP either, `UpsertDevice` reduces to: append the created row, no
wiring, mark online. -/
theorem upsert_create_nowire (s : Store) (now : Nat) (p : RegisterPayload)
    (h : findByIP s p.ip = none)
    (hg : findByIP { s with devices := s.devices ++ [createDevice s p],
                            nextID := s.nextID + 1 } p.gatewayIP = none) :
    UpsertDevice s now p
      = (markOnline now (createDevice s p),
         updateDevice { s with devices := s.devices ++ [createDevice s p],
                               nextID := s.nextID + 1 }
           s.nextID (markOnline now)) := by
  simp only [UpsertDevice, h]
  by_cases hw : (createDevice s p).parentID = none ∧ (createDevice s p).gatewayIP ≠ ""
  · simp only [if_pos hw]
    unfold wireParent
    rw [show (createDevice s p).gatewayIP = p.gatewayIP from rfl, hg]
    rfl
  · simp only [if_neg hw]
    rfl

/-- Mapping a by-id rewrite over a hit row. -/
theorem option_map_ite_eq {i : Nat} (f : Device → Device) (d : Device)
    (h : d.id = i) :
    Option.map (fun x => if x.id = i then f x else x) (some d) = some (f d) := by
  simp [h]

/-- Mapping a by-id rewrite over a missed row. -/
theorem option_map_ite_ne {i : Nat} (f : Device → Device) (d : Device)
    (h : ¬ (d.id = i)) :
    Option.map (fun x => if x.id = i then f x else x) (some d) = some d := by
  simp [h]

/-- C5: device A reports with gateway IP G while no device has IP G — A
stays parentless; a later registration of a device with IP G does not by
itself change A's parent; on A's next report after G exists, A acquires G's
device as its parent. -/
theorem late_arriving_gateway (s : Store) (n1 n2 n3 : Nat) (a G : String)
    (pA pG pA2 : RegisterPayload)
    (ha : findByIP s a = none) (hg : findByIP s G = none)
    (hag : a ≠ G) (hGne : G ≠ "")
    (hpAip : pA.ip = a) (hpAgw : pA.gatewayIP = G) (hpApar : pA.parentID = none)
    (hpGip : pG.ip = G)
    (hpA2ip : pA2.ip = a) (hpA2gw : pA2.gatewayIP = G)
    (hpA2par : pA2.parentID = none) :
    (∀ e, findByIP (UpsertDevice s n1 pA).2 a = some e → e.parentID = none) ∧
    (∀ e, findByIP (UpsertDevice (UpsertDevice s n1 pA).2 n2 pG).2 a = some e →
       e.parentID = none) ∧
    (∃ dA dG,
       findByIP (UpsertDevice (UpsertDevice (UpsertDevice s n1 pA).2 n2 pG).2
         n3 pA2).2 a = some dA ∧
       findByIP (UpsertDevice (UpsertDevice (UpsertDevice s n1 pA).2 n2 pG).2
         n3 pA2).2 G = some dG ∧
       dA.parentID = some dG.id) := by
  -- step 1: A registers; its gateway G is nowhere, so no wiring happens
  have hfindA : findByIP s pA.ip = none := by rw [hpAip]; exact ha
  have hgw1 : findByIP { s with devices := s.devices ++ [createDevice s pA],
                                 nextID := s.nextID + 1 } pA.gatewayIP = none := by
    rw [hpAgw]
    show (s.devices ++ [createDevice s pA]).find? (fun d => d.ip = G) = none
    rw [findByIP_append_none s _ G hg]
    simp [List.find?_cons, createDevice_ip, hpAip, hag]
  have h1eq := upsert_create_nowire s n1 pA hfindA hgw1
  set devA0 := createDevice s pA with hdevA0
  set devA := markOnline n1 devA0 with hdevA
  set s1 : Store := updateDevice { s with devices := s.devices ++ [devA0],
                                           nextID := s.nextID + 1 }
    s.nextID (markOnline n1) with hs1def
  have hs1 : (UpsertDevice s n1 pA).2 = s1 := congrArg Prod.snd h1eq
  have hF1 : findByIP s1 a = some devA := by
    rw [hs1def,
      findByIP_updateDevice { s with devices := s.devices ++ [devA0],
                                     nextID := s.nextID + 1 }
        s.nextID (markOnline n1) a (fun x => rfl)]
    have hbase : findByIP { s with devices := s.devices ++ [devA0],
                                   nextID := s.nextID + 1 } a = some devA0 := by
      show (s.devices ++ [devA0]).find? (fun d => d.ip = a) = some devA0
      rw [findByIP_append_none s _ a ha]
      simp [List.find?_cons, hdevA0, createDevice_ip, hpAip]
    rw [hbase,
      option_map_ite_eq (markOnline n1) devA0 (show devA0.id = s.nextID from rfl)]
  have hF2 : findByIP s1 G = none := by
    rw [hs1def,
      findByIP_updateDevice { s with devices := s.devices ++ [devA0],
                                     nextID := s.nextID + 1 }
        s.nextID (markOnline n1) G (fun x => rfl)]
    have hbase : findByIP { s with devices := s.devices ++ [devA0],
                                   nextID := s.nextID + 1 } G = none := by
      show (s.devices ++ [devA0]).find? (fun d => d.ip = G) = none
      rw [findByIP_append_none s _ G hg]
      simp [List.find?_cons, hdevA0, createDevice_ip, hpAip, hag]
    rw [hbase]
    rfl
  have hdevAid : devA.id = s.nextID := rfl
  have hdevApar : devA.parentID = none := by
    rw [hdevA, markOnline_parentID, hdevA0, createDevice_parentID, hpApar]
  -- step 2: G registers; A's row is untouched
  have hfindG : findByIP s1 pG.ip = none := by rw [hpGip]; exact hF2
  obtain ⟨u2, hu2, hoff2, hfind2, -, -, -, -⟩ :=
    upsert_create_find s1 n2 pG a hfindG
  obtain ⟨u3, hu3, hoff3, hfind3, -, -, -, -⟩ :=
    upsert_create_find s1 n2 pG G hfindG
  set s2 : Store := (UpsertDevice s1 n2 pG).2 with hs2def
  have hs1next : s1.nextID = s.nextID + 1 := rfl
  have hF4 : findByIP s2 a = some devA := by
    rw [hs2def, hfind2]
    have hbase : findByIP { s1 with devices := s1.devices ++ [createDevice s1 pG],
                                    nextID := s1.nextID + 1 } a = some devA :=
      findByIP_append_some s1 _ a devA hF1
    rw [hbase, Option.map_some', hoff2 devA (by rw [hdevAid, hs1next]; omega)]
  set devG2 := u3 (createDevice s1 pG) with hdevG2
  have hG2id : devG2.id = s.nextID + 1 := by
    rw [hdevG2, (hu3 (createDevice s1 pG)).1, createDevice_id, hs1next]
  have hF5 : findByIP s2 G = some devG2 := by
    rw [hs2def, hfind3]
    have hbase : findByIP { s1 with devices := s1.devices ++ [createDevice s1 pG],
                                    nextID := s1.nextID + 1 } G = some (createDevice s1 pG) := by
      show (s1.devices ++ [createDevice s1 pG]).find? (fun d => d.ip = G) = _
      rw [findByIP_append_none s1 _ G hF2]
      simp [List.find?_cons, createDevice_ip, hpGip]
    rw [hbase, Option.map_some']
  -- step 3: A reports again; the gateway lookup now succeeds and wires A
  have hfound3 : findByIP s2 pA2.ip = some devA := by rw [hpA2ip]; exact hF4
  have hkey : (overwriteMutable n3 pA2 devA).id = s.nextID := rfl
  have hguard : ¬ (devG2.id = (overwriteMutable n3 pA2 devA).id) := by
    rw [hG2id, hkey]
    omega
  have hguardN : ¬ (devG2.id = s.nextID) := by
    rw [hG2id]
    omega
  have hfindwire : findByIP
      (updateDevice s2 (overwriteMutable n3 pA2 devA).id (overwriteMutable n3 pA2))
      (overwriteMutable n3 pA2 devA).gatewayIP = some devG2 := by
    rw [show (overwriteMutable n3 pA2 devA).gatewayIP = pA2.gatewayIP from rfl, hpA2gw,
      findByIP_updateDevice s2 (overwriteMutable n3 pA2 devA).id
        (overwriteMutable n3 pA2) G (fun x => rfl),
      hF5, option_map_ite_ne (overwriteMutable n3 pA2) devG2 hguard]
  have h3eq : UpsertDevice s2 n3 pA2
      = (markOnline n3 { overwriteMutable n3 pA2 devA with parentID := some devG2.id },
         updateDevice
           (updateDevice
             (updateDevice s2 s.nextID (overwriteMutable n3 pA2))
             s.nextID (fun d => { d with parentID := some devG2.id }))
           s.nextID (markOnline n3)) := by
    simp only [UpsertDevice, hfound3, hpA2par]
    rw [if_pos ⟨show (overwriteMutable n3 pA2 devA).parentID = none from
          hdevApar, by
            rw [show (overwriteMutable n3 pA2 devA).gatewayIP = pA2.gatewayIP from rfl,
              hpA2gw]
            exact hGne⟩]
    unfold wireParent
    rw [hfindwire]
    dsimp only
    rw [if_neg hguard]
    rfl
  refine ⟨?_, ?_, ?_⟩
  · intro e he
    rw [hs1, hF1] at he
    cases he
    exact hdevApar
  · intro e he
    rw [hs1, ← hs2def, hF4] at he
    cases he
    exact hdevApar
  · refine ⟨markOnline n3 { overwriteMutable n3 pA2 devA with parentID := some devG2.id },
      devG2, ?_, ?_, ?_⟩
    · rw [hs1, ← hs2def, congrArg Prod.snd h3eq,
        findByIP_updateDevice _ s.nextID (markOnline n3) a (fun x => rfl),
        findByIP_updateDevice _ s.nextID
          (fun d => { d with parentID := some devG2.id }) a (fun x => rfl),
        findByIP_updateDevice _ s.nextID (overwriteMutable n3 pA2) a (fun x => rfl),
        hF4, option_map_ite_eq (overwriteMutable n3 pA2) devA hdevAid]
      rw [option_map_ite_eq (fun d => { d with parentID := some devG2.id })
        (overwriteMutable n3 pA2 devA) hkey]
      dsimp only
      rw [option_map_ite_eq (markOnline n3)
        { overwriteMutable n3 pA2 devA with parentID := some devG2.id }
        (show ({ overwriteMutable n3 pA2 devA with
                 parentID := some devG2.id } : Device).id = s.nextID from rfl)]
    · rw [hs1, ← hs2def, congrArg Prod.snd h3eq,
        findByIP_updateDevice _ s.nextID (markOnline n3) G (fun x => rfl),
        findByIP_updateDevice _ s.nextID
          (fun d => { d with parentID := some devG2.id }) G (fun x => rfl),
        findByIP_updateDevice _ s.nextID (overwriteMutable n3 pA2) G (fun x => rfl),
        hF5, option_map_ite_ne (overwriteMutable n3 pA2) devG2 hguardN,
        option_map_ite_ne (fun d => { d with parentID := some devG2.id }) devG2 hguardN,
        option_map_ite_ne (markOnline n3) devG2 hguardN]
    · rfl

/-- Device A's registration: IP 10.0.0.2, gateway 10.0.0.1, no parent. -/
def c5A : RegisterPayload :=
  { hostname := "a", ip := "10.0.0.2", os := "linux", gatewayIP := "10.0.0.1",
    group := "default", networkMode := "Bridged", parentID := none,
    agentVer := "v1" }

/-- The gateway's late registration: IP 10.0.0.1. -/
def c5G : RegisterPayload :=
  { hostname := "gw", ip := "10.0.0.1", os := "linux", gatewayIP := "",
    group := "default", networkMode := "Bridged", parentID := none,
    agentVer := "v1" }

/-- The store after: A reports, G registers, A reports again. -/
def c5Store : Store :=
  (UpsertDevice (UpsertDevice (UpsertDevice emptyStore 1 c5A).2 2 c5G).2 3 c5A).2

/-- Witness for `late_arriving_gateway` on the concrete scenario: after A's
second report, A's stored parent is G's id (2). -/
theorem late_arriving_gateway_witness :
    (findByIP c5Store "10.0.0.2").map (fun d => d.parentID) = some (some 2) := by
  obtain ⟨dA, dG, h1, h2, h3⟩ :=
    (late_arriving_gateway emptyStore 1 2 3 "10.0.0.2" "10.0.0.1" c5A c5G c5A
       rfl rfl (by decide) (by decide) rfl rfl rfl rfl rfl rfl rfl).2.2
  have h1' : findByIP c5Store "10.0.0.2" = some dA := h1
  have h2' : findByIP c5Store "10.0.0.1" = some dG := h2
  have hid : (findByIP c5Store "10.0.0.1").map (fun d => d.id) = some 2 := by decide
  rw [h2', Option.map_some'] at hid
  rw [h1', Option.map_some', h3, Option.some.inj hid]

/-! ## Tree builder (GetDeviceTree, lines 890-928) -/

/-- Membership of an id in the node map (`nodeMap[id]` hit). -/
def nodePresent (devs : List Device) (i : Nat) : Bool :=
  devs.any (fun d => d.id = i)

/-- One round of the Go wiring loop: a parentless node joins the roots; a
node whose parent id is in the node map is appended to that parent's child
list; a node with an absent parent id is promoted to the roots. -/
def buildStep (devs : List Device) (acc : List Device × (Nat → List Device))
    (d : Device) : List Device × (Nat → List Device) :=
  match d.parentID with
  | none => (acc.1 ++ [d], acc.2)
  | some p =>
    if nodePresent devs p then
      (acc.1, fun q => if q = p then acc.2 q ++ [d] else acc.2 q)
    else (acc.1 ++ [d], acc.2)

/-- `GetDeviceTree`: the wiring loop ranges over the Go map `nodeMap`, whose
iteration order the Go runtime leaves unspecified, so the embedding receives
that iteration sequence as the input list `order` (a permutation of the
loaded devices).  The result is the ordered root list and, per id, the
ordered child list — together they determine the nested forest the handler
returns. -/
def GetDeviceTree (order : List Device) : List Device × (Nat → List Device) :=
  order.foldl (buildStep order) ([], fun _ => [])

/-- A node the loop sends to the root list: no parent, or an absent one. -/
def isRootNode (devs : List Device) (d : Device) : Bool :=
  match d.parentID with
  | none => true
  | some p => !nodePresent devs p

/-- The wiring fold, from any accumulator: roots gain exactly the root
nodes in iteration order, and each child list gains exactly the nodes naming
that present parent, in iteration order. -/
theorem buildPass_spec (devs : List Device) (order : List Device) :
    ∀ acc : List Device × (Nat → List Device),
      (order.foldl (buildStep devs) acc).1
        = acc.1 ++ order.filter (isRootNode devs) ∧
      ∀ q, (order.foldl (buildStep devs) acc).2 q
        = acc.2 q ++ order.filter
            (fun d => decide (d.parentID = some q) && nodePresent devs q) := by
  induction order with
  | nil => intro acc; simp
  | cons d rest ih =>
    intro acc
    rw [List.foldl_cons]
    obtain ⟨ih1, ih2⟩ := ih (buildStep devs acc d)
    constructor
    · rw [ih1]
      cases hpar : d.parentID with
      | none =>
        simp [buildStep, isRootNode, hpar, List.filter_cons]
      | some p =>
        by_cases hpres : nodePresent devs p = true
        · simp [buildStep, isRootNode, hpar, hpres, List.filter_cons]
        · simp only [Bool.not_eq_true] at hpres
          simp [buildStep, isRootNode, hpar, hpres, List.filter_cons]
    · intro q
      rw [ih2 q]
      cases hpar : d.parentID with
      | none =>
        simp [buildStep, hpar, List.filter_cons]
      | some p =>
        by_cases hpres : nodePresent devs p = true
        · by_cases hq : q = p
          · subst hq
            simp [buildStep, hpar, hpres, List.filter_cons]
          · simp [buildStep, hpar, hpres, List.filter_cons, hq,
              Ne.symm hq]
        · simp only [Bool.not_eq_true] at hpres
          by_cases hq : q = p
          · subst hq
            simp [buildStep, hpar, hpres, List.filter_cons]
          · simp [buildStep, hpar, hpres, List.filter_cons, hq, Ne.symm hq]

/-- The root list of the built forest, explicitly. -/
theorem getDeviceTree_roots (order : List Device) :
    (GetDeviceTree order).1 = order.filter (isRootNode order) := by
  have h := (buildPass_spec order order ([], fun _ => [])).1
  simpa [GetDeviceTree] using h

/-- Each child list of the built forest, explicitly: the nodes naming that
(present) parent, in map-iteration order. -/
theorem getDeviceTree_children (order : List Device) (q : Nat) :
    (GetDeviceTree order).2 q
      = order.filter (fun d => decide (d.parentID = some q) && nodePresent order q) := by
  have h := (buildPass_spec order order ([], fun _ => [])).2 q
  simpa [GetDeviceTree] using h

/-- Occurrences of id `i` in the subtree the handler serializes below node
`d`, materialized to depth `fuel` (for a forest with acyclic parent links a
fuel of `order.length` reaches every node, so this is the whole subtree). -/
def countFrom (order : List Device) (i : Nat) : Nat → Device → Nat
  | 0, d => if d.id = i then 1 else 0
  | fuel + 1, d =>
    (if d.id = i then 1 else 0) +
      (((GetDeviceTree order).2 d.id).map (countFrom order i fuel)).sum

/-- Occurrences of id `i` in the returned forest (all roots, nested). -/
def forestCount (order : List Device) (i : Nat) : Nat :=
  ((GetDeviceTree order).1.map (countFrom order i order.length)).sum

/-- The node a device's parent reference resolves to, if any. -/
def parentOf (order : List Device) (d : Device) : Option Device :=
  match d.parentID with
  | none => none
  | some p => order.find? (fun x => x.id = p)

/-- The ancestor chain: `chain order d k` is the `k`-th ancestor of `d`
(`none` once the chain has fallen off a root or an orphan). -/
def chain (order : List Device) (d : Device) : Nat → Option Device
  | 0 => some d
  | k + 1 =>
    match chain order d k with
    | none => none
    | some c => parentOf order c

/-- Parent links are acyclic: from any node, following parent references
falls off within `order.length` steps (equivalent to the parent relation
having no cycle among the loaded devices). -/
abbrev Acyclic (order : List Device) : Prop :=
  ∀ d ∈ order, chain order d (order.length + 1) = none

/-- Once the chain is off, it stays off. -/
theorem chain_none_le (order : List Device) (d : Device) {k m : Nat}
    (h : chain order d k = none) (hkm : k ≤ m) : chain order d m = none := by
  induction m with
  | zero =>
    have : k = 0 := Nat.le_zero.mp hkm
    rw [← this]
    exact h
  | succ m ih =>
    rcases Nat.lt_or_ge k (m + 1) with hlt | hge
    · have hm : chain order d m = none := ih (Nat.lt_succ_iff.mp hlt)
      rw [chain, hm]
    · have : k = m + 1 := Nat.le_antisymm hkm hge
      rw [← this]
      exact h

/-- Chain values are loaded devices. -/
theorem chain_mem (order : List Device) (d : Device) (hd : d ∈ order) :
    ∀ k c, chain order d k = some c → c ∈ order := by
  intro k
  induction k with
  | zero =>
    intro c hc
    rw [chain] at hc
    cases hc
    exact hd
  | succ k ih =>
    intro c hc
    rw [chain] at hc
    cases hk : chain order d k with
    | none =>
      rw [hk] at hc
      simp at hc
    | some c' =>
      rw [hk] at hc
      dsimp only at hc
      unfold parentOf at hc
      cases hpar : c'.parentID with
      | none =>
        rw [hpar] at hc
        simp at hc
      | some p =>
        rw [hpar] at hc
        dsimp only at hc
        exact List.mem_of_find?_eq_some hc

/-- With distinct primary keys, equal ids mean the same record. -/
theorem id_inj {order : List Device}
    (hids : (order.map (fun d => d.id)).Nodup) {x y : Device}
    (hx : x ∈ order) (hy : y ∈ order) (h : x.id = y.id) : x = y :=
  List.inj_on_of_nodup_map hids hx hy h

/-- With distinct primary keys, looking a stored device's id up finds it. -/
theorem find?_id_self {r : Device} :
    ∀ {order : List Device}, (order.map (fun d => d.id)).Nodup → r ∈ order →
      order.find? (fun x => x.id = r.id) = some r := by
  intro order
  induction order with
  | nil => exact fun _ hr => absurd hr (List.not_mem_nil r)
  | cons x rest ih =>
    intro hids hr
    by_cases hxr : x.id = r.id
    · have hx : x = r := id_inj hids (List.mem_cons_self x rest) hr hxr
      simp [List.find?_cons, hxr, hx]
    · have hrmem : r ∈ rest := by
        cases List.mem_cons.mp hr with
        | inl h => exact absurd (congrArg Device.id h.symm) hxr
        | inr h => exact h
      have htail : (rest.map (fun d => d.id)).Nodup := by
        rw [List.map_cons] at hids
        exact hids.of_cons
      simp only [List.find?_cons]
      rw [show (decide (x.id = r.id)) = false by simp [hxr]]
      exact ih htail hrmem

/-- The node-map membership test agrees with the lookup. -/
theorem nodePresent_eq_isSome (order : List Device) (p : Nat) :
    nodePresent order p = (order.find? (fun x => x.id = p)).isSome := by
  induction order with
  | nil => rfl
  | cons x rest ih =>
    by_cases hx : x.id = p
    · simp [nodePresent, List.find?_cons, hx]
    · simp only [nodePresent, List.any_cons, List.find?_cons]
      rw [show (decide (x.id = p)) = false by simp [hx]]
      simpa [nodePresent] using ih

/-- A node goes to the roots exactly when its parent reference resolves to
nothing. -/
theorem isRootNode_iff_parentOf (order : List Device) (c : Device) :
    isRootNode order c = true ↔ parentOf order c = none := by
  cases hpar : c.parentID with
  | none => simp [isRootNode, parentOf, hpar]
  | some p =>
    simp only [isRootNode, parentOf, hpar]
    rw [nodePresent_eq_isSome]
    cases hfind : order.find? (fun x => x.id = p) <;> simp

/-- Sums of pointwise sums split. -/
theorem sum_map_add {α : Type} (l : List α) (f g : α → Nat) :
    (l.map (fun x => f x + g x)).sum = (l.map f).sum + (l.map g).sum := by
  induction l with
  | nil => rfl
  | cons x l ih =>
    simp only [List.map_cons, List.sum_cons, ih]
    omega

/-- Over a duplicate-free list, the indicator of "this option hits the
element" sums to the indicator of "this option hits the list". -/
theorem sum_ite_eq_some (o : Option Device) (cs : List Device)
    (hnd : cs.Nodup) :
    (cs.map (fun c => if o = some c then 1 else 0)).sum
      = if ∃ c ∈ cs, o = some c then 1 else 0 := by
  induction cs with
  | nil => simp
  | cons c cs ih =>
    simp only [List.map_cons, List.sum_cons]
    by_cases h : o = some c
    · have hz : (cs.map (fun x => if o = some x then 1 else 0)).sum = 0 := by
        apply List.sum_eq_zero
        intro x hx
        simp only [List.mem_map] at hx
        obtain ⟨c', hc', rfl⟩ := hx
        rw [if_neg]
        intro hco
        have : c = c' := Option.some.inj (h.symm.trans hco)
        rw [this] at hnd
        exact (List.nodup_cons.mp hnd).1 hc'
      rw [if_pos h, hz, if_pos ⟨c, List.mem_cons_self c cs, h⟩]
    · have hiff : (∃ x ∈ c :: cs, o = some x) ↔ (∃ x ∈ cs, o = some x) := by
        constructor
        · rintro ⟨x, hx, hox⟩
          cases List.mem_cons.mp hx with
          | inl e =>
            rw [e] at hox
            exact absurd hox h
          | inr m => exact ⟨x, m, hox⟩
        · rintro ⟨x, hx, hox⟩
          exact ⟨x, List.mem_cons_of_mem _ hx, hox⟩
      rw [if_neg h, ih (List.nodup_cons.mp hnd).2, Nat.zero_add]
      exact (if_congr hiff rfl rfl).symm

/-- Over a duplicate-free list of candidate nodes, summing per-node hit
counts of an option-valued trajectory equals counting the steps at which the
trajectory hits the list. -/
theorem sum_countP_eq (v : Nat → Option Device) (cs : List Device)
    (hnd : cs.Nodup) (ks : List Nat) :
    (cs.map (fun c => ks.countP (fun k => v k = some c))).sum
      = ks.countP (fun k => ∃ c ∈ cs, v k = some c) := by
  induction ks with
  | nil => simp
  | cons k ks ih =>
    have hsplit : ∀ c ∈ cs,
        List.countP (fun j => v j = some c) (k :: ks)
          = List.countP (fun j => v j = some c) ks
            + (if v k = some c then 1 else 0) := by
      intro c _
      rw [List.countP_cons]
      simp [decide_eq_true_eq]
    rw [List.map_congr_left hsplit, sum_map_add, ih,
      sum_ite_eq_some (v k) cs hnd, List.countP_cons]
    simp [decide_eq_true_eq]

/-- Counting id occurrences below node `r` equals counting the steps at
which `d`'s ancestor chain passes through `r`: node `d` (the unique carrier
of its id) appears below `r` once per chain hit. -/
theorem countFrom_eq_countP (order : List Device)
    (hids : (order.map (fun x => x.id)).Nodup) (d : Device) (hd : d ∈ order) :
    ∀ (fuel : Nat) (r : Device), r ∈ order →
      countFrom order d.id fuel r
        = (List.range (fuel + 1)).countP
            (fun k => chain order d k = some r) := by
  intro fuel
  induction fuel with
  | zero =>
    intro r hr
    rw [countFrom, show List.range 1 = [0] from rfl,
      List.countP_cons, List.countP_nil]
    simp only [Nat.zero_add, decide_eq_true_eq,
      show chain order d 0 = some d from rfl]
    by_cases h : r.id = d.id
    · have hdr : d = r := id_inj hids hd hr h.symm
      simp [h, hdr]
    · rw [if_neg h, if_neg]
      intro hc
      exact h (congrArg Device.id (Option.some.inj hc)).symm
  | succ fuel ih =>
    intro r hr
    rw [countFrom]
    have hpres : nodePresent order r.id = true := by
      unfold nodePresent
      rw [List.any_eq_true]
      exact ⟨r, hr, by simp⟩
    set cs := order.filter (fun x => decide (x.parentID = some r.id)) with hcsdef
    have hchildren : (GetDeviceTree order).2 r.id = cs := by
      rw [getDeviceTree_children]
      simp only [hpres, Bool.and_true]
    have hnods : cs.Nodup := by
      rw [hcsdef]
      exact (List.filter_sublist order).nodup (List.Nodup.of_map _ hids)
    have hmem_par : ∀ c, c ∈ cs ↔ (c ∈ order ∧ c.parentID = some r.id) := by
      intro c
      rw [hcsdef, List.mem_filter]
      simp [decide_eq_true_eq]
    have hmapc : cs.map (countFrom order d.id fuel)
        = cs.map (fun c => (List.range (fuel + 1)).countP
            (fun k => chain order d k = some c)) :=
      List.map_congr_left (fun c hc => ih c ((hmem_par c).mp hc).1)
    rw [hchildren, hmapc, sum_countP_eq (chain order d) cs hnods]
    have hcong : ∀ k ∈ List.range (fuel + 1),
        (decide (∃ c ∈ cs, chain order d k = some c) = true)
          ↔ (decide (chain order d (k + 1) = some r) = true) := by
      intro k _
      simp only [decide_eq_true_eq]
      constructor
      · rintro ⟨c, hcmem, hck⟩
        have hcpar : c.parentID = some r.id := ((hmem_par c).mp hcmem).2
        rw [chain, hck]
        dsimp only
        unfold parentOf
        rw [hcpar]
        dsimp only
        exact find?_id_self hids hr
      · intro hk1
        rw [chain] at hk1
        cases hck : chain order d k with
        | none =>
          rw [hck] at hk1
          simp at hk1
        | some c =>
          rw [hck] at hk1
          dsimp only at hk1
          unfold parentOf at hk1
          cases hcpar : c.parentID with
          | none =>
            rw [hcpar] at hk1
            simp at hk1
          | some p =>
            rw [hcpar] at hk1
            dsimp only at hk1
            have hpr : r.id = p := by
              have hsome := List.find?_some hk1
              simpa [decide_eq_true_eq] using hsome
            exact ⟨c, (hmem_par c).mpr
              ⟨chain_mem order d hd k c hck, by rw [hcpar, hpr]⟩, rfl⟩
    rw [List.countP_congr hcong]
    have hrange : (List.range (fuel + 1 + 1)).countP
          (fun k => chain order d k = some r)
        = (if chain order d 0 = some r then 1 else 0)
          + (List.range (fuel + 1)).countP
              (fun k => chain order d (k + 1) = some r) := by
      rw [List.range_succ_eq_map, List.countP_cons, List.countP_map]
      simp only [decide_eq_true_eq, Function.comp_def, Nat.succ_eq_add_one]
      omega
    rw [hrange, show chain order d 0 = some d from rfl]
    by_cases h : r.id = d.id
    · have hdr : d = r := id_inj hids hd hr h.symm
      rw [if_pos h, if_pos (congrArg some hdr)]
    · rw [if_neg h, if_neg (fun hc => h (congrArg Device.id
        (Option.some.inj hc)).symm)]

/-- A terminating ancestor chain has a unique last live step. -/
theorem chain_exists_last (order : List Device) (d : Device) :
    ∀ m : Nat, chain order d m = none →
      ∃ k < m, chain order d k ≠ none ∧ chain order d (k + 1) = none := by
  intro m
  induction m with
  | zero =>
    intro h
    exact absurd h (by simp [chain])
  | succ m ih =>
    intro h
    by_cases hm : chain order d m = none
    · obtain ⟨k, hk, h1, h2⟩ := ih hm
      exact ⟨k, Nat.lt_succ_of_lt hk, h1, h2⟩
    · exact ⟨m, Nat.lt_succ_self m, hm, h⟩

/-- A predicate met by exactly one entry of a duplicate-free list counts 1. -/
theorem countP_eq_one_of_unique {α : Type} (p : α → Bool) (k : α)
    (hpk : p k = true) :
    ∀ l : List α, k ∈ l → l.Nodup → (∀ j ∈ l, p j = true → j = k) →
      l.countP p = 1 := by
  intro l
  induction l with
  | nil => exact fun hk _ _ => absurd hk (List.not_mem_nil k)
  | cons a l ih =>
    intro hk hnd hu
    rw [List.countP_cons]
    by_cases hpa : p a = true
    · have hak : a = k := hu a (List.mem_cons_self a l) hpa
      have hz : l.countP p = 0 := by
        rw [List.countP_eq_zero]
        intro b hb hpb
        have hbk : b = k := hu b (List.mem_cons_of_mem a hb) hpb
        rw [hbk, ← hak] at hb
        exact (List.nodup_cons.mp hnd).1 hb
      rw [hz, if_pos hpa]
    · have hkl : k ∈ l := by
        cases List.mem_cons.mp hk with
        | inl e =>
          rw [e] at hpk
          exact absurd hpk hpa
        | inr m => exact m
      rw [if_neg hpa, Nat.add_zero]
      exact ih hkl (List.nodup_cons.mp hnd).2
        (fun j hj hpj => hu j (List.mem_cons_of_mem a hj) hpj)

/-- C6 as amended: over a loaded device set with distinct primary keys whose
parent links are acyclic, `GetDeviceTree` (in any node-map iteration order)
promotes every orphan to the root level rather than dropping it, and every
loaded device appears exactly once in the returned forest. -/
theorem getDeviceTree_forest_complete (order : List Device)
    (hids : (order.map (fun x => x.id)).Nodup)
    (hacyc : Acyclic order) :
    (∀ d ∈ order, ∀ p, d.parentID = some p → nodePresent order p = false →
       d ∈ (GetDeviceTree order).1) ∧
    (∀ d ∈ order, forestCount order d.id = 1) := by
  constructor
  · intro d hd p hpar hpres
    rw [getDeviceTree_roots, List.mem_filter]
    refine ⟨hd, ?_⟩
    unfold isRootNode
    rw [hpar]
    dsimp only
    rw [hpres]
    rfl
  · intro d hd
    unfold forestCount
    rw [getDeviceTree_roots]
    set rs := order.filter (isRootNode order) with hrsdef
    have hndr : rs.Nodup := by
      rw [hrsdef]
      exact (List.filter_sublist order).nodup (List.Nodup.of_map _ hids)
    have hmemr : ∀ r, r ∈ rs ↔ (r ∈ order ∧ isRootNode order r = true) := by
      intro r
      rw [hrsdef, List.mem_filter]
    have hmapc : rs.map (countFrom order d.id order.length)
        = rs.map (fun r => (List.range (order.length + 1)).countP
            (fun k => chain order d k = some r)) :=
      List.map_congr_left (fun r hr =>
        countFrom_eq_countP order hids d hd order.length r ((hmemr r).mp hr).1)
    rw [hmapc, sum_countP_eq (chain order d) rs hndr]
    have hcong : ∀ k ∈ List.range (order.length + 1),
        (decide (∃ r ∈ rs, chain order d k = some r) = true)
          ↔ (decide (chain order d k ≠ none ∧ chain order d (k + 1) = none)
              = true) := by
      intro k _
      simp only [decide_eq_true_eq]
      constructor
      · rintro ⟨r, hrmem, hck⟩
        refine ⟨by rw [hck]; simp, ?_⟩
        rw [chain, hck]
        dsimp only
        exact (isRootNode_iff_parentOf order r).mp ((hmemr r).mp hrmem).2
      · rintro ⟨hne, hnone⟩
        cases hck : chain order d k with
        | none => exact absurd hck hne
        | some c =>
          have hpnone : parentOf order c = none := by
            rw [chain] at hnone
            rw [hck] at hnone
            dsimp only at hnone
            exact hnone
          exact ⟨c, (hmemr c).mpr
            ⟨chain_mem order d hd k c hck,
             (isRootNode_iff_parentOf order c).mpr hpnone⟩, rfl⟩
    rw [List.countP_congr hcong]
    obtain ⟨k₀, hk₀lt, h1, h2⟩ :=
      chain_exists_last order d (order.length + 1) (hacyc d hd)
    exact countP_eq_one_of_unique _ k₀
      (by simp only [decide_eq_true_eq]; exact ⟨h1, h2⟩)
      (List.range (order.length + 1)) (List.mem_range.mpr hk₀lt)
      (List.nodup_range _)
      (fun j hj hpj => by
        simp only [decide_eq_true_eq] at hpj
        obtain ⟨hjne, hjnone⟩ := hpj
        rcases Nat.lt_trichotomy j k₀ with hlt | heq | hgt
        · exact absurd (chain_none_le order d hjnone (Nat.succ_le_of_lt hlt)) h1
        · exact heq
        · exact absurd (chain_none_le order d h2 (Nat.succ_le_of_lt hgt)) hjne)

/-- A root device (id 1). -/
def treeRootDev : Device :=
  { id := 1, hostname := "r", remark := "", ip := "10.0.0.1", os := "linux",
    parentID := none, gatewayIP := "", networkMode := "Bridged",
    group := "default", lastSeen := 0, agentVer := "v1", isOnline := true }

/-- A child of device 1 (id 2). -/
def treeChildDev : Device :=
  { id := 2, hostname := "c1", remark := "", ip := "10.0.0.2", os := "linux",
    parentID := some 1, gatewayIP := "10.0.0.1", networkMode := "Bridged",
    group := "default", lastSeen := 0, agentVer := "v1", isOnline := true }

/-- An orphan: its parent id 99 is not in the loaded set (id 3). -/
def treeOrphanDev : Device :=
  { id := 3, hostname := "o", remark := "", ip := "10.0.0.3", os := "linux",
    parentID := some 99, gatewayIP := "", networkMode := "Bridged",
    group := "default", lastSeen := 0, agentVer := "v1", isOnline := true }

/-- A loaded set with a root, a child and an orphan. -/
def treeOrder : List Device := [treeRootDev, treeChildDev, treeOrphanDev]

/-- Witness for `getDeviceTree_forest_complete`: the orphan sits at root
level and the child appears exactly once. -/
theorem getDeviceTree_forest_complete_witness :
    treeOrphanDev ∈ (GetDeviceTree treeOrder).1 ∧ forestCount treeOrder 2 = 1 :=
  ⟨(getDeviceTree_forest_complete treeOrder (by decide) (by decide)).1
     treeOrphanDev (by decide) 99 rfl (by decide),
   (getDeviceTree_forest_complete treeOrder (by decide) (by decide)).2
     treeChildDev (by decide)⟩

/-- Two devices parenting each other (reachable through gateway wiring or
explicit parent ids). -/
def cycleDevA : Device :=
  { id := 1, hostname := "a", remark := "", ip := "10.0.0.1", os := "linux",
    parentID := some 2, gatewayIP := "10.0.0.2", networkMode := "Bridged",
    group := "default", lastSeen := 0, agentVer := "v1", isOnline := true }

/-- The other half of the 2-cycle. -/
def cycleDevB : Device :=
  { id := 2, hostname := "b", remark := "", ip := "10.0.0.2", os := "linux",
    parentID := some 1, gatewayIP := "10.0.0.1", networkMode := "Bridged",
    group := "default", lastSeen := 0, agentVer := "v1", isOnline := true }

/-- A loaded set forming a parent 2-cycle. -/
def cycleOrder : List Device := [cycleDevA, cycleDevB]

/-- C6 counterexample: with a parent 2-cycle, both nodes land only in each
other's child lists, the root list is empty, and device 1 appears ZERO times
in the returned forest — not exactly once. -/
theorem getDeviceTree_cycle_drops_devices :
    cycleDevA ∈ cycleOrder ∧ forestCount cycleOrder 1 = 0 := by
  decide

/-- A second child of device 1 (id 3). -/
def treeChild2Dev : Device :=
  { id := 3, hostname := "c2", remark := "", ip := "10.0.0.3", os := "linux",
    parentID := some 1, gatewayIP := "10.0.0.1", networkMode := "Bridged",
    group := "default", lastSeen := 0, agentVer := "v1", isOnline := true }

/-- The order the three devices were loaded from the store. -/
def loadOrder : List Device := [treeRootDev, treeChildDev, treeChild2Dev]

/-- One possible Go map-iteration order over the same three nodes. -/
def iterOrder : List Device := [treeRootDev, treeChild2Dev, treeChildDev]

/-- C8 counterexample: under a legitimate map-iteration order (a permutation
of the load order — Go's map order is unspecified), the child list of the
root is [id 3, id 2], not the load order [id 2, id 3]. -/
theorem children_not_load_order :
    iterOrder.Perm loadOrder ∧
    (GetDeviceTree iterOrder).2 1
      ≠ loadOrder.filter (fun d => decide (d.parentID = some 1)) := by
  decide

/-- C8 as amended: each parent's child list lists exactly the loaded devices
naming it as parent, in the order the wiring loop iterates the node map —
Go leaves that map order unspecified, so it is the load order only when the
iteration happens to visit the nodes in load order. -/
theorem children_follow_iteration_order (order : List Device) (q : Nat) :
    (GetDeviceTree order).2 q
      = order.filter
          (fun d => decide (d.parentID = some q) && nodePresent order q) :=
  getDeviceTree_children order q
